import Mathlib

/-!
Shallow embedding of the `horario` shift-scheduling repository
(`src/main.py`, `src/app.py`) for checking its specification.

The two Python files build the same OR-Tools CP-SAT model; `app.py`'s
`create_scheduling_model` is the parameterized version of the fixed-constant
script in `main.py`, so the embedding below follows `app.py` and treats
`main.py` as the instance with `num_days = 14`, `num_workers = 23` and the
default staffing dictionaries.

A CP-SAT model is embedded as the list of boolean variables it creates plus
the list of constraints it adds; a constraint is a syntactic object whose
satisfaction under a boolean valuation of the variables is given by `evalC`.
Variable identity follows creation sites: `NewBoolVar` always creates a fresh
variable (its name string is only a label), so the `works_{w}_{d}` indicator
created inside the window loop is keyed by (worker, window start, day) —
one fresh variable per loop iteration, exactly as in the source.
-/

namespace Horario

/-- The four shift kinds of the source (`shifts = ['manha', 'central', 'tarde', 'noite']`). -/
inductive Shift where
  | manha
  | central
  | tarde
  | noite
deriving DecidableEq

/-- `weekday_shifts = ['manha', 'central', 'tarde', 'noite']` (app.py line 49). -/
def weekday_shifts : List Shift := [.manha, .central, .tarde, .noite]

/-- `weekend_shifts = ['manha', 'tarde', 'noite']` (app.py line 50). -/
def weekend_shifts : List Shift := [.manha, .tarde, .noite]

/-- The weekend test of the model builder: `d % 7 == 5 or d % 7 == 6`
(app.py lines 55, 75; main.py lines 19, 62). -/
def isWeekendDay (d : Nat) : Bool := d % 7 == 5 || d % 7 == 6

/-- `shifts_by_day_type[d]` (app.py lines 53-58): the valid shift kinds of day `d`. -/
def shifts_by_day_type (d : Nat) : List Shift :=
  if isWeekendDay d then weekend_shifts else weekday_shifts

/-- The configuration accepted by `create_scheduling_model` (app.py line 41).
The staffing dictionaries are partial maps (a Python dict lookup of a missing
key raises `KeyError`), and their values are unconstrained integers. -/
structure Config where
  num_days : Nat
  num_workers : Nat
  required_staff_weekday : Shift → Option Int
  required_staff_weekend : Shift → Option Int

/-- Identity of the boolean variables the builder creates.  `x w d s` is the
assignment variable `x[(w, d, s)]` (app.py line 65); `works w t d` is the
indicator `works_on_day` freshly created by `NewBoolVar` in the iteration of
the window loop with window start `t` and day `d` (app.py line 85) — distinct
windows create distinct variables even though their name strings coincide. -/
inductive VarId where
  | x (w d : Nat) (s : Shift)
  | works (w t d : Nat)
deriving DecidableEq

/-- The list `[x[(w, d, s)] for s in shifts_by_day_type[d]]` used by
constraints 1 and 3 (app.py lines 70, 86, 87). -/
def dayVars (w d : Nat) : List VarId :=
  (shifts_by_day_type d).map (VarId.x w d)

/-- The list `[x[(w, d, s)] for w in workers]` summed by constraint 2
(app.py lines 76, 78). -/
def coverVars (cfg : Config) (d : Nat) (s : Shift) : List VarId :=
  (List.range cfg.num_workers).map (fun w => VarId.x w d s)

/-- `range(start_day, start_day + 7)` (app.py line 84). -/
def windowDays (start_day : Nat) : List Nat :=
  (List.range 7).map (fun i => start_day + i)

/-- `working_days_in_window` for worker `w` and window start `t`
(app.py lines 83-88): the indicator copies of this window. -/
def windowVars (w t : Nat) : List VarId :=
  (windowDays t).map (VarId.works w t)

/-- The constraint forms the builder adds: `AddAtMostOne`, `Add(sum == k)`,
`AddBoolOr(vs).OnlyEnforceIf(l)`, `Add(sum == 0).OnlyEnforceIf(l.Not())`,
`Add(sum <= k)`. -/
inductive Constraint where
  | atMostOne (vs : List VarId)
  | exactSum (vs : List VarId) (k : Int)
  | boolOrIf (l : VarId) (vs : List VarId)
  | zeroIfNot (l : VarId) (vs : List VarId)
  | sumLe (vs : List VarId) (k : Nat)
deriving DecidableEq

/-- Number of variables of `vs` that are true under valuation `asg`. -/
def countTrue (asg : VarId → Bool) (vs : List VarId) : Nat :=
  vs.countP asg

/-- Satisfaction of one constraint under a valuation, following CP-SAT
semantics of the five primitives used by the source. -/
def evalC (asg : VarId → Bool) : Constraint → Bool
  | .atMostOne vs => decide (countTrue asg vs ≤ 1)
  | .exactSum vs k => decide ((countTrue asg vs : Int) = k)
  | .boolOrIf l vs => !asg l || vs.any asg
  | .zeroIfNot l vs => asg l || decide (countTrue asg vs = 0)
  | .sumLe vs k => decide (countTrue asg vs ≤ k)

/-- The variables of a constraint (enforcement literal included). -/
def varsOf : Constraint → List VarId
  | .atMostOne vs => vs
  | .exactSum vs _ => vs
  | .boolOrIf l vs => l :: vs
  | .zeroIfNot l vs => l :: vs
  | .sumLe vs _ => vs

/-- The assignment variables created by the decision-variable loop
(app.py lines 61-65): one per worker, day, and shift valid on that day. -/
def assignmentVars (cfg : Config) : List VarId :=
  (List.range cfg.num_workers).flatMap fun w =>
    (List.range cfg.num_days).flatMap fun d =>
      (shifts_by_day_type d).map (VarId.x w d)

/-- Constraint 1, `AddAtMostOne` per worker and day (app.py lines 68-70). -/
def constraint1 (cfg : Config) : List Constraint :=
  (List.range cfg.num_workers).flatMap fun w =>
    (List.range cfg.num_days).map fun d => Constraint.atMostOne (dayVars w d)

/-- The staffing dictionary lookup of constraint 2 (app.py lines 75-78):
weekend days read `required_staff_weekend[s]`, weekdays
`required_staff_weekday[s]`; `none` is a Python `KeyError`. -/
def reqOf (cfg : Config) (d : Nat) (s : Shift) : Option Int :=
  if isWeekendDay d then cfg.required_staff_weekend s else cfg.required_staff_weekday s

/-- Inner loop of constraint 2 over the valid shifts of day `d`; stops with
the `KeyError` of the first missing dictionary entry. -/
def c2shifts (cfg : Config) (d : Nat) : List Shift → Except String (List Constraint)
  | [] => Except.ok []
  | s :: rest =>
    match reqOf cfg d s with
    | none => Except.error ("KeyError")
    | some r => (c2shifts cfg d rest).map
        (fun cs => Constraint.exactSum (coverVars cfg d s) r :: cs)

/-- Outer loop of constraint 2 over the days. -/
def c2days (cfg : Config) : List Nat → Except String (List Constraint)
  | [] => Except.ok []
  | d :: rest =>
    match c2shifts cfg d (shifts_by_day_type d) with
    | Except.error e => Except.error e
    | Except.ok cs => (c2days cfg rest).map (fun rest2 => cs ++ rest2)

/-- Constraint 2, exact staffing per day and valid shift (app.py lines 73-78). -/
def constraint2 (cfg : Config) : Except String (List Constraint) :=
  c2days cfg (List.range cfg.num_days)

/-- The constraints constraint 2 produces when no lookup fails. -/
def c2total (cfg : Config) : List Constraint :=
  (List.range cfg.num_days).flatMap fun d =>
    (shifts_by_day_type d).filterMap fun s =>
      (reqOf cfg d s).map (fun r => Constraint.exactSum (coverVars cfg d s) r)

/-- All staffing lookups performed by constraint 2 succeed. -/
def complete (cfg : Config) : Bool :=
  (List.range cfg.num_days).all fun d =>
    (shifts_by_day_type d).all fun s => (reqOf cfg d s).isSome

/-- The indicator variables created by the window loop (app.py lines 81-85):
one fresh variable per worker, window start in `range(num_days - 6)`, and day
of the window. -/
def worksVars (cfg : Config) : List VarId :=
  (List.range cfg.num_workers).flatMap fun w =>
    (List.range (cfg.num_days - 6)).flatMap fun t =>
      (windowDays t).map (VarId.works w t)

/-- Constraint 3, the rolling-window encoding (app.py lines 81-89): per
worker and window start, the two reified constraints of each day of the
window followed by the cardinality bound over the window's indicators. -/
def constraint3 (cfg : Config) : List Constraint :=
  (List.range cfg.num_workers).flatMap fun w =>
    (List.range (cfg.num_days - 6)).flatMap fun t =>
      ((windowDays t).flatMap fun d =>
        [Constraint.boolOrIf (VarId.works w t d) (dayVars w d),
         Constraint.zeroIfNot (VarId.works w t d) (dayVars w d)])
      ++ [Constraint.sumLe (windowVars w t) 5]

/-- A built model: its variables and its constraints. -/
structure Model where
  vars : List VarId
  constraints : List Constraint
deriving DecidableEq

/-- The model `create_scheduling_model` builds when every staffing lookup
succeeds. -/
def mkModel (cfg : Config) : Model :=
  { vars := assignmentVars cfg ++ worksVars cfg
  , constraints := constraint1 cfg ++ c2total cfg ++ constraint3 cfg }

/-- `create_scheduling_model` (app.py lines 41-96): creates the assignment
variables, then constraints 1, 2 and 3; the only failure is the `KeyError`
of a missing staffing entry, raised while building constraint 2 — after the
assignment variables already exist. -/
def create_scheduling_model (cfg : Config) : Except String Model :=
  match constraint2 cfg with
  | Except.error e => Except.error e
  | Except.ok c2 => Except.ok
      { vars := assignmentVars cfg ++ worksVars cfg
      , constraints := constraint1 cfg ++ c2 ++ constraint3 cfg }

/-- Whether model construction runs to completion without an exception. -/
def buildSucceeds (cfg : Config) : Bool :=
  match create_scheduling_model cfg with
  | Except.ok _ => true
  | Except.error _ => false

/-- A valuation satisfies a model when every constraint of the model holds. -/
def satisfiesModel (asg : VarId → Bool) (m : Model) : Bool :=
  m.constraints.all (evalC asg)

/-- One row of the schedule DataFrame (app.py lines 113-121); the wall-clock
`Date`/`Day` fields derived from `datetime.now()` are not modelled. -/
structure ScheduleRow where
  day_num : Nat
  shift : Shift
  workers : List Nat
  worker_count : Nat
  is_weekend : Bool
deriving DecidableEq

/-- `create_schedule_dataframe` (app.py lines 98-123): one row per day and
valid shift, listing the workers whose variable is true; `Is_Weekend` is the
source's `d % 7 >= 5`.  The function is total: it performs no validation of
the extracted schedule and has no failure path. -/
def create_schedule_dataframe (cfg : Config) (asg : VarId → Bool) : List ScheduleRow :=
  (List.range cfg.num_days).flatMap fun d =>
    (shifts_by_day_type d).map fun s =>
      let assigned := (List.range cfg.num_workers).filter (fun w => asg (VarId.x w d s))
      { day_num := d
      , shift := s
      , workers := assigned
      , worker_count := assigned.length
      , is_weekend := decide (5 ≤ d % 7) }

/-- The (day, valid shift) slots iterated by extraction and the reporter. -/
def daySlots (cfg : Config) : List (Nat × Shift) :=
  (List.range cfg.num_days).flatMap fun d =>
    (shifts_by_day_type d).map (fun s => (d, s))

/-- One row of the worker summary (app.py lines 145-154). -/
structure WorkerRow where
  worker_id : Nat
  total_shifts : Nat
  weekday_count : Nat
  weekend_count : Nat
  manha_count : Nat
  central_count : Nat
  tarde_count : Nat
  noite_count : Nat
deriving DecidableEq

/-- `create_worker_summary` (app.py lines 125-156): per worker, counts over
the (day, valid shift) slots whose variable is true; weekday/weekend split by
the source's `d % 7 >= 5`, per-kind counts by the shift of the slot. -/
def create_worker_summary (cfg : Config) (asg : VarId → Bool) : List WorkerRow :=
  (List.range cfg.num_workers).map fun w =>
    let worked : Nat × Shift → Bool := fun p => asg (VarId.x w p.1 p.2)
    { worker_id := w
    , total_shifts := (daySlots cfg).countP worked
    , weekday_count := (daySlots cfg).countP (fun p => worked p && !decide (5 ≤ p.1 % 7))
    , weekend_count := (daySlots cfg).countP (fun p => worked p && decide (5 ≤ p.1 % 7))
    , manha_count := (daySlots cfg).countP (fun p => worked p && decide (p.2 = Shift.manha))
    , central_count := (daySlots cfg).countP (fun p => worked p && decide (p.2 = Shift.central))
    , tarde_count := (daySlots cfg).countP (fun p => worked p && decide (p.2 = Shift.tarde))
    , noite_count := (daySlots cfg).countP (fun p => worked p && decide (p.2 = Shift.noite)) }

/-- The assignment-variable keys queried by `create_schedule_dataframe`
(app.py line 106) and by the printing loop of main.py lines 130-139. -/
def scheduleQueries (cfg : Config) : List VarId :=
  (daySlots cfg).flatMap fun p =>
    (List.range cfg.num_workers).map (fun w => VarId.x w p.1 p.2)

/-- The assignment-variable keys queried by `create_worker_summary`
(app.py line 137) and by the debug loop of main.py lines 142-149. -/
def summaryQueries (cfg : Config) : List VarId :=
  (List.range cfg.num_workers).flatMap fun w =>
    (daySlots cfg).map (fun p => VarId.x w p.1 p.2)

/-- Modelled from the spec (section 4.5): the "at most one shift per worker
per day" re-check the specification requires the extractor to run on the
extracted Schedule alone.  No such check exists in the source; this
definition follows the spec's words and is used only to exhibit that the
source returns schedules violating it. -/
def spec_at_most_one_ok (cfg : Config) (rows : List ScheduleRow) : Bool :=
  (List.range cfg.num_workers).all fun w =>
    (List.range cfg.num_days).all fun d =>
      decide ((rows.countP (fun r => r.day_num == d && r.workers.contains w)) ≤ 1)

/-- The CP-SAT statuses a solve can return. -/
inductive CpSolverStatus where
  | optimal
  | feasible
  | infeasible
  | model_invalid
  | unknown
deriving DecidableEq

/-- `solver.StatusName(status)` for each status. -/
def status_name : CpSolverStatus → String
  | .optimal => "OPTIMAL"
  | .feasible => "FEASIBLE"
  | .infeasible => "INFEASIBLE"
  | .model_invalid => "MODEL_INVALID"
  | .unknown => "UNKNOWN"

/-- The branch condition of the post-solve dispatch
(`if status == cp_model.OPTIMAL or status == cp_model.FEASIBLE`,
main.py line 125, app.py line 201): `true` selects the solution branch,
`false` the single `else` branch shared by every other status. -/
def solutionBranch (st : CpSolverStatus) : Bool :=
  st == CpSolverStatus.optimal || st == CpSolverStatus.feasible

/-- What the `else` branch reports (main.py line 153): `none` when the
solution branch was taken, otherwise the one failure message, which embeds
only the status name. -/
def failure_message (st : CpSolverStatus) : Option String :=
  if solutionBranch st then none
  else some ("No solution found. Status: " ++ status_name st)

/-- The fixed configuration of main.py (lines 8-35): 14 days, 23 workers,
weekday staffing 6/2/6/3, weekend staffing 3/3/3 with no `central` entry. -/
def mainConfig : Config :=
  { num_days := 14
  , num_workers := 23
  , required_staff_weekday := fun s =>
      match s with
      | .manha => some 6
      | .central => some 2
      | .tarde => some 6
      | .noite => some 3
  , required_staff_weekend := fun s =>
      match s with
      | .manha => some 3
      | .central => none
      | .tarde => some 3
      | .noite => some 3 }

/-- A small 7-day, 1-worker configuration with zero staffing everywhere;
the all-false valuation satisfies its model. -/
def cfgSmall : Config :=
  { num_days := 7, num_workers := 1
  , required_staff_weekday := fun _ => some 0
  , required_staff_weekend := fun _ => some 0 }

/-- A 6-day configuration: below the 7-day window length. -/
def cfgSixDays : Config :=
  { num_days := 6, num_workers := 1
  , required_staff_weekday := fun _ => some 0
  , required_staff_weekend := fun _ => some 0 }

/-- An 8-day, 1-worker configuration: two overlapping windows. -/
def cfgTwoWindows : Config :=
  { num_days := 8, num_workers := 1
  , required_staff_weekday := fun _ => some 0
  , required_staff_weekend := fun _ => some 0 }

/-- A 1-day, 2-worker configuration. -/
def cfgOneDay : Config :=
  { num_days := 1, num_workers := 2
  , required_staff_weekday := fun _ => some 1
  , required_staff_weekend := fun _ => some 1 }

/-- A configuration whose weekday `manha` staffing count is negative. -/
def cfgNegative : Config :=
  { num_days := 1, num_workers := 1
  , required_staff_weekday := fun s =>
      match s with
      | .manha => some (-1)
      | _ => some 0
  , required_staff_weekend := fun _ => some 0 }

/-- A configuration whose weekday dictionary is missing the `central` entry
even though day 0 is a weekday, so constraint 2 hits a `KeyError`. -/
def cfgMissing : Config :=
  { num_days := 1, num_workers := 1
  , required_staff_weekday := fun s =>
      match s with
      | .central => none
      | _ => some 1
  , required_staff_weekend := fun _ => some 1 }

/-- A valuation assigning worker 0 every shift of day 0 and nothing else. -/
def badAsg : VarId → Bool :=
  fun v =>
    match v with
    | .x 0 0 _ => true
    | _ => false

/-- `Except` success as a boolean, for stating when construction completes. -/
def isOkE {α : Type} : Except String α → Bool
  | Except.ok _ => true
  | Except.error _ => false

/-! ### Helper lemmas -/

theorem isWeekendDay_iff {d : Nat} : isWeekendDay d = true ↔ d % 7 = 5 ∨ d % 7 = 6 := by
  simp [isWeekendDay]

theorem isWeekendDay_eq_ge (d : Nat) : isWeekendDay d = decide (5 ≤ d % 7) := by
  by_cases h5 : d % 7 = 5
  · simp [isWeekendDay, h5]
  · by_cases h6 : d % 7 = 6
    · simp [isWeekendDay, h6]
    · have h : d % 7 < 7 := Nat.mod_lt _ (by omega)
      have hlt : ¬(5 ≤ d % 7) := by omega
      simp [isWeekendDay, h5, h6, hlt]

theorem central_mem_shifts {d : Nat} (h : Shift.central ∈ shifts_by_day_type d) :
    isWeekendDay d = false := by
  cases hw : isWeekendDay d
  · rfl
  · rw [shifts_by_day_type, hw] at h
    simp [weekend_shifts] at h

theorem mem_shifts_weekday {d : Nat} {s : Shift} (h : isWeekendDay d = false) :
    s ∈ shifts_by_day_type d := by
  rw [shifts_by_day_type, h]
  cases s <;> simp [weekday_shifts]

theorem mem_shifts_weekend {d : Nat} {s : Shift} (h : isWeekendDay d = true) :
    s ∈ shifts_by_day_type d ↔ s ≠ Shift.central := by
  rw [shifts_by_day_type, h]
  cases s <;> simp [weekend_shifts]

theorem mem_windowDays {t d : Nat} : d ∈ windowDays t ↔ t ≤ d ∧ d < t + 7 := by
  simp only [windowDays, List.mem_map, List.mem_range]
  constructor
  · rintro ⟨i, hi, rfl⟩
    omega
  · intro h
    exact ⟨d - t, by omega, by omega⟩

theorem windowVars_head (a b : Nat) : (windowVars a b).head? = some (VarId.works a b b) := rfl

theorem windowVars_inj {w t w' t' : Nat} (h : windowVars w t = windowVars w' t') :
    w = w' ∧ t = t' := by
  have h0 : (windowVars w t).head? = (windowVars w' t').head? := by rw [h]
  rw [windowVars_head, windowVars_head] at h0
  simp only [Option.some.injEq, VarId.works.injEq] at h0
  exact ⟨h0.1, h0.2.1⟩

theorem x_mem_dayVars {a b w d : Nat} {s : Shift} :
    VarId.x a b s ∈ dayVars w d ↔ a = w ∧ b = d ∧ s ∈ shifts_by_day_type d := by
  simp only [dayVars, List.mem_map]
  constructor
  · rintro ⟨s', hs', he⟩
    injection he with h1 h2 h3
    subst h1; subst h2; subst h3
    exact ⟨rfl, rfl, hs'⟩
  · rintro ⟨rfl, rfl, hs⟩
    exact ⟨s, hs, rfl⟩

theorem works_not_mem_dayVars {a b c w d : Nat} : VarId.works a b c ∉ dayVars w d := by
  simp [dayVars, List.mem_map]

theorem x_mem_coverVars {cfg : Config} {a b d : Nat} {s' s : Shift} :
    VarId.x a b s' ∈ coverVars cfg d s ↔ a < cfg.num_workers ∧ b = d ∧ s' = s := by
  simp only [coverVars, List.mem_map, List.mem_range]
  constructor
  · rintro ⟨w', hw', he⟩
    injection he with h1 h2 h3
    subst h1; subst h2; subst h3
    exact ⟨hw', rfl, rfl⟩
  · rintro ⟨hw, rfl, rfl⟩
    exact ⟨a, hw, rfl⟩

theorem x_not_mem_windowVars {a b w t : Nat} {s : Shift} :
    VarId.x a b s ∉ windowVars w t := by
  simp [windowVars, List.mem_map]

theorem x_mem_assignmentVars {cfg : Config} {w d : Nat} {s : Shift} :
    VarId.x w d s ∈ assignmentVars cfg ↔
      w < cfg.num_workers ∧ d < cfg.num_days ∧ s ∈ shifts_by_day_type d := by
  simp only [assignmentVars, List.mem_flatMap, List.mem_range, List.mem_map]
  constructor
  · rintro ⟨w', hw', d', hd', s', hs', he⟩
    injection he with h1 h2 h3
    subst h1; subst h2; subst h3
    exact ⟨hw', hd', hs'⟩
  · rintro ⟨hw, hd, hs⟩
    exact ⟨w, hw, d, hd, s, hs, rfl⟩

theorem works_mem_worksVars {cfg : Config} {w t d : Nat} :
    VarId.works w t d ∈ worksVars cfg ↔
      w < cfg.num_workers ∧ t + 7 ≤ cfg.num_days ∧ t ≤ d ∧ d < t + 7 := by
  simp only [worksVars, List.mem_flatMap, List.mem_range, List.mem_map]
  constructor
  · rintro ⟨w', hw', t', ht', d', hd', he⟩
    injection he with h1 h2 h3
    subst h1; subst h2; subst h3
    rw [mem_windowDays] at hd'
    exact ⟨hw', by omega, hd'.1, hd'.2⟩
  · rintro ⟨hw, ht, h1, h2⟩
    exact ⟨w, hw, t, by omega, d, by rw [mem_windowDays]; exact ⟨h1, h2⟩, rfl⟩

theorem mem_constraint1 {cfg : Config} {c : Constraint} :
    c ∈ constraint1 cfg ↔
      ∃ w, w < cfg.num_workers ∧ ∃ d, d < cfg.num_days ∧ c = Constraint.atMostOne (dayVars w d) := by
  simp only [constraint1, List.mem_flatMap, List.mem_range, List.mem_map]
  constructor
  · rintro ⟨w, hw, d, hd, rfl⟩
    exact ⟨w, hw, d, hd, rfl⟩
  · rintro ⟨w, hw, d, hd, rfl⟩
    exact ⟨w, hw, d, hd, rfl⟩

theorem mem_c2total {cfg : Config} {c : Constraint} :
    c ∈ c2total cfg ↔
      ∃ d, d < cfg.num_days ∧ ∃ s, s ∈ shifts_by_day_type d ∧
        ∃ r, reqOf cfg d s = some r ∧ c = Constraint.exactSum (coverVars cfg d s) r := by
  simp only [c2total, List.mem_flatMap, List.mem_range, List.mem_filterMap, Option.map_eq_some']
  constructor
  · rintro ⟨d, hd, s, hs, r, hr, rfl⟩
    exact ⟨d, hd, s, hs, r, hr, rfl⟩
  · rintro ⟨d, hd, s, hs, r, hr, rfl⟩
    exact ⟨d, hd, s, hs, r, hr, rfl⟩

theorem mem_constraint3 {cfg : Config} {c : Constraint} :
    c ∈ constraint3 cfg ↔
      ∃ w, w < cfg.num_workers ∧ ∃ t, t + 7 ≤ cfg.num_days ∧
        ((∃ d, t ≤ d ∧ d < t + 7 ∧
            (c = Constraint.boolOrIf (VarId.works w t d) (dayVars w d) ∨
             c = Constraint.zeroIfNot (VarId.works w t d) (dayVars w d))) ∨
          c = Constraint.sumLe (windowVars w t) 5) := by
  simp only [constraint3, List.mem_flatMap, List.mem_range, List.mem_append,
    List.mem_singleton, List.mem_cons, List.not_mem_nil, or_false]
  constructor
  · rintro ⟨w, hw, t, ht, h⟩
    refine ⟨w, hw, t, by omega, ?_⟩
    rcases h with ⟨d, hd, hc⟩ | hc
    · rw [mem_windowDays] at hd
      exact Or.inl ⟨d, hd.1, hd.2, hc⟩
    · exact Or.inr hc
  · rintro ⟨w, hw, t, ht, h⟩
    refine ⟨w, hw, t, by omega, ?_⟩
    rcases h with ⟨d, hd1, hd2, hc⟩ | hc
    · exact Or.inl ⟨d, by rw [mem_windowDays]; exact ⟨hd1, hd2⟩, hc⟩
    · exact Or.inr hc

theorem mem_mkModel {cfg : Config} {c : Constraint} :
    c ∈ (mkModel cfg).constraints ↔
      c ∈ constraint1 cfg ∨ c ∈ c2total cfg ∨ c ∈ constraint3 cfg := by
  simp [mkModel, List.mem_append, or_assoc]

theorem sat_eval {asg : VarId → Bool} {m : Model} {c : Constraint}
    (h : satisfiesModel asg m = true) (hc : c ∈ m.constraints) : evalC asg c = true :=
  List.all_eq_true.mp h c hc

theorem sat_false_of {asg : VarId → Bool} {m : Model} {c : Constraint}
    (hc : c ∈ m.constraints) (he : evalC asg c = false) : satisfiesModel asg m = false := by
  cases hs : satisfiesModel asg m
  · rfl
  · have h2 := List.all_eq_true.mp hs c hc
    rw [he] at h2
    exact Bool.noConfusion h2

theorem countTrue_eq_zero {asg : VarId → Bool} {vs : List VarId} :
    countTrue asg vs = 0 ↔ vs.any asg = false := by
  simp [countTrue, List.countP_eq_zero, List.any_eq_false]

theorem countP_split {α : Type} (l : List α) (p q : α → Bool) :
    l.countP p = l.countP (fun a => p a && q a) + l.countP (fun a => p a && !q a) := by
  induction l with
  | nil => rfl
  | cons a tl ih =>
    simp only [List.countP_cons]
    cases hp : p a <;> cases hq : q a <;> simp [hp, hq, ih] <;> omega

theorem countP_congr_mem {α : Type} {l : List α} {p q : α → Bool}
    (h : ∀ a ∈ l, p a = q a) : l.countP p = l.countP q := by
  induction l with
  | nil => rfl
  | cons a tl ih =>
    simp only [List.countP_cons, h a (List.mem_cons_self a tl),
      ih (fun b hb => h b (List.mem_cons_of_mem a hb))]

theorem countP_shift_partition (l : List (Nat × Shift)) (p : Nat × Shift → Bool) :
    l.countP p =
      l.countP (fun a => p a && decide (a.2 = Shift.manha)) +
      l.countP (fun a => p a && decide (a.2 = Shift.central)) +
      l.countP (fun a => p a && decide (a.2 = Shift.tarde)) +
      l.countP (fun a => p a && decide (a.2 = Shift.noite)) := by
  induction l with
  | nil => rfl
  | cons a tl ih =>
    obtain ⟨d, s⟩ := a
    cases s with
    | manha => cases hp : p (d, Shift.manha) <;> simp [List.countP_cons, hp, ih] <;> omega
    | central => cases hp : p (d, Shift.central) <;> simp [List.countP_cons, hp, ih] <;> omega
    | tarde => cases hp : p (d, Shift.tarde) <;> simp [List.countP_cons, hp, ih] <;> omega
    | noite => cases hp : p (d, Shift.noite) <;> simp [List.countP_cons, hp, ih] <;> omega

theorem length_flatMap_congr {α β γ : Type} (l : List α) (f : α → List β) (g : α → List γ)
    (h : ∀ a ∈ l, (f a).length = (g a).length) :
    (l.flatMap f).length = (l.flatMap g).length := by
  induction l with
  | nil => rfl
  | cons a tl ih =>
    simp only [List.flatMap_cons, List.length_append, h a (List.mem_cons_self a tl),
      ih (fun b hb => h b (List.mem_cons_of_mem a hb))]

theorem length_flatMap_const {α β : Type} (l : List α) (f : α → List β) (k : Nat)
    (h : ∀ a ∈ l, (f a).length = k) :
    (l.flatMap f).length = l.length * k := by
  induction l with
  | nil => simp
  | cons a tl ih =>
    simp only [List.flatMap_cons, List.length_append, List.length_cons,
      h a (List.mem_cons_self a tl), ih (fun b hb => h b (List.mem_cons_of_mem a hb))]
    rw [Nat.succ_mul]
    omega

theorem mem_daySlots {cfg : Config} {p : Nat × Shift} :
    p ∈ daySlots cfg ↔ p.1 < cfg.num_days ∧ p.2 ∈ shifts_by_day_type p.1 := by
  obtain ⟨d, s⟩ := p
  simp only [daySlots, List.mem_flatMap, List.mem_range, List.mem_map]
  constructor
  · rintro ⟨d', hd', s', hs', he⟩
    injection he with h1 h2
    subst h1; subst h2
    exact ⟨hd', hs'⟩
  · rintro ⟨hd, hs⟩
    exact ⟨d, hd, s, hs, rfl⟩

theorem any_dayVars (asg : VarId → Bool) (w d : Nat) :
    (dayVars w d).any asg = (shifts_by_day_type d).any (fun s => asg (VarId.x w d s)) := by
  show ((shifts_by_day_type d).map (VarId.x w d)).any asg = _
  generalize shifts_by_day_type d = l
  induction l with
  | nil => rfl
  | cons a tl ih => simp [List.any_cons, ih]

theorem c2shifts_ok {cfg : Config} {d : Nat} :
    ∀ {ss : List Shift}, (∀ s ∈ ss, (reqOf cfg d s).isSome) →
      c2shifts cfg d ss = Except.ok (ss.filterMap fun s =>
        (reqOf cfg d s).map (fun r => Constraint.exactSum (coverVars cfg d s) r)) := by
  intro ss
  induction ss with
  | nil => intro _; rfl
  | cons s rest ih =>
    intro h
    obtain ⟨r, hr⟩ := Option.isSome_iff_exists.mp (h s (List.mem_cons_self s rest))
    have hrest := ih (fun b hb => h b (List.mem_cons_of_mem s hb))
    simp [c2shifts, hr, hrest, List.filterMap_cons, Except.map]

theorem c2days_ok {cfg : Config} :
    ∀ {ds : List Nat}, (∀ d ∈ ds, ∀ s ∈ shifts_by_day_type d, (reqOf cfg d s).isSome) →
      c2days cfg ds = Except.ok (ds.flatMap fun d =>
        (shifts_by_day_type d).filterMap fun s =>
          (reqOf cfg d s).map (fun r => Constraint.exactSum (coverVars cfg d s) r)) := by
  intro ds
  induction ds with
  | nil => intro _; rfl
  | cons d rest ih =>
    intro h
    have hd := c2shifts_ok (h d (List.mem_cons_self d rest))
    have hrest := ih (fun b hb => h b (List.mem_cons_of_mem d hb))
    simp [c2days, hd, hrest, List.flatMap_cons, Except.map]

theorem create_scheduling_model_ok {cfg : Config} (h : complete cfg = true) :
    create_scheduling_model cfg = Except.ok (mkModel cfg) := by
  have h1 := List.all_eq_true.mp h
  have h2 : ∀ d ∈ List.range cfg.num_days, ∀ s ∈ shifts_by_day_type d, (reqOf cfg d s).isSome :=
    fun d hd s hs => List.all_eq_true.mp (h1 d hd) s hs
  rw [create_scheduling_model, constraint2, c2days_ok h2]
  rfl

theorem c2shifts_isOk {cfg : Config} {d : Nat} :
    ∀ (ss : List Shift),
      isOkE (c2shifts cfg d ss) = ss.all (fun s => (reqOf cfg d s).isSome) := by
  intro ss
  induction ss with
  | nil => rfl
  | cons s rest ih =>
    cases hr : reqOf cfg d s with
    | none =>
      simp only [c2shifts, hr, isOkE, List.all_cons, Option.isSome_none, Bool.false_and]
    | some r =>
      cases hc : c2shifts cfg d rest with
      | error e =>
        rw [hc] at ih
        simp only [isOkE] at ih
        simp only [c2shifts, hr, hc, Except.map, isOkE, List.all_cons,
          Option.isSome_some, Bool.true_and, ← ih]
      | ok cs =>
        rw [hc] at ih
        simp only [isOkE] at ih
        simp only [c2shifts, hr, hc, Except.map, isOkE, List.all_cons,
          Option.isSome_some, Bool.true_and, ← ih]

theorem c2days_isOk {cfg : Config} :
    ∀ (ds : List Nat),
      isOkE (c2days cfg ds) =
        ds.all (fun d => (shifts_by_day_type d).all fun s => (reqOf cfg d s).isSome) := by
  intro ds
  induction ds with
  | nil => rfl
  | cons d rest ih =>
    have h1 := @c2shifts_isOk cfg d (shifts_by_day_type d)
    cases hd : c2shifts cfg d (shifts_by_day_type d) with
    | error e =>
      rw [hd] at h1
      simp only [isOkE] at h1
      simp only [c2days, hd, isOkE, List.all_cons, ← h1, Bool.false_and]
    | ok cs =>
      rw [hd] at h1
      simp only [isOkE] at h1
      cases hc : c2days cfg rest with
      | error e =>
        rw [hc] at ih
        simp only [isOkE] at ih
        simp only [c2days, hd, hc, Except.map, isOkE, List.all_cons, ← h1, ← ih,
          Bool.true_and]
      | ok cs2 =>
        rw [hc] at ih
        simp only [isOkE] at ih
        simp only [c2days, hd, hc, Except.map, isOkE, List.all_cons, ← h1, ← ih,
          Bool.true_and]

theorem buildSucceeds_eq_complete (cfg : Config) : buildSucceeds cfg = complete cfg := by
  have h := @c2days_isOk cfg (List.range cfg.num_days)
  cases hc : c2days cfg (List.range cfg.num_days) with
  | error e =>
    rw [hc] at h
    simp only [isOkE] at h
    simp only [buildSucceeds, create_scheduling_model, constraint2, hc, complete, ← h]
  | ok cs =>
    rw [hc] at h
    simp only [isOkE] at h
    simp only [buildSucceeds, create_scheduling_model, constraint2, hc, complete, ← h]

/-! ### Claim theorems -/

/-- Claim C1: the model contains the constraint
`sum(works-on-day indicators of worker w over [t, t+6]) <= 5` exactly for the
window starts `t` with `t + 7 ≤ num_days` (i.e. `t ∈ [0, num_days - 7]`), the
only `sum <= k` constraints of the model are these windows with bound 5, a
horizon of fewer than 7 days generates zero window constraints, construction
succeeds independently of the window encoding (it fails exactly on missing
staffing entries), and every satisfying assignment has at most 5 true
indicators per window. -/
theorem claim_C1 (cfg : Config) (w t : Nat) :
    (Constraint.sumLe (windowVars w t) 5 ∈ (mkModel cfg).constraints ↔
      w < cfg.num_workers ∧ t + 7 ≤ cfg.num_days)
    ∧ (∀ vs k, Constraint.sumLe vs k ∈ (mkModel cfg).constraints →
        k = 5 ∧ ∃ w' t', w' < cfg.num_workers ∧ t' + 7 ≤ cfg.num_days ∧ vs = windowVars w' t')
    ∧ (cfg.num_days < 7 → constraint3 cfg = [])
    ∧ buildSucceeds cfg = complete cfg
    ∧ (∀ asg, satisfiesModel asg (mkModel cfg) = true →
        w < cfg.num_workers → t + 7 ≤ cfg.num_days →
        countTrue asg (windowVars w t) ≤ 5) := by
  have hA : Constraint.sumLe (windowVars w t) 5 ∈ (mkModel cfg).constraints ↔
      w < cfg.num_workers ∧ t + 7 ≤ cfg.num_days := by
    constructor
    · intro h
      rcases mem_mkModel.mp h with h1 | h2 | h3
      · rcases mem_constraint1.mp h1 with ⟨w', _, d', _, heq⟩
        exact Constraint.noConfusion heq
      · rcases mem_c2total.mp h2 with ⟨d, _, s, _, r, _, heq⟩
        exact Constraint.noConfusion heq
      · rcases mem_constraint3.mp h3 with ⟨w', hw', t', ht', hcase⟩
        rcases hcase with ⟨d, _, _, heq | heq⟩ | heq
        · exact Constraint.noConfusion heq
        · exact Constraint.noConfusion heq
        · injection heq with hvs hk
          obtain ⟨rfl, rfl⟩ := windowVars_inj hvs
          exact ⟨hw', ht'⟩
    · rintro ⟨hw, ht⟩
      exact mem_mkModel.mpr (Or.inr (Or.inr (mem_constraint3.mpr ⟨w, hw, t, ht, Or.inr rfl⟩)))
  refine ⟨hA, ?_, ?_, buildSucceeds_eq_complete cfg, ?_⟩
  · intro vs k h
    rcases mem_mkModel.mp h with h1 | h2 | h3
    · rcases mem_constraint1.mp h1 with ⟨w', _, d', _, heq⟩
      exact Constraint.noConfusion heq
    · rcases mem_c2total.mp h2 with ⟨d, _, s, _, r, _, heq⟩
      exact Constraint.noConfusion heq
    · rcases mem_constraint3.mp h3 with ⟨w', hw', t', ht', hcase⟩
      rcases hcase with ⟨d, _, _, heq | heq⟩ | heq
      · exact Constraint.noConfusion heq
      · exact Constraint.noConfusion heq
      · injection heq with hvs hk
        exact ⟨hk, w', t', hw', ht', hvs⟩
  · intro h7
    apply List.eq_nil_iff_forall_not_mem.mpr
    intro c hc
    rcases mem_constraint3.mp hc with ⟨w', _, t', ht', _⟩
    omega
  · intro asg hsat hw ht
    have hc := hA.mpr ⟨hw, ht⟩
    have he := sat_eval hsat hc
    simp only [evalC] at he
    exact of_decide_eq_true he

/-- Witness for C1 at concrete configurations: the window constraint of
worker 0, start 0 is in the 7-day model, the 6-day horizon generates no
window constraints, and the all-false assignment has at most 5 working
indicators in the window. -/
theorem claim_C1_witness :
    Constraint.sumLe (windowVars 0 0) 5 ∈ (mkModel cfgSmall).constraints
    ∧ constraint3 cfgSixDays = []
    ∧ countTrue (fun _ => false) (windowVars 0 0) ≤ 5 :=
  ⟨(claim_C1 cfgSmall 0 0).1.mpr (by decide),
   (claim_C1 cfgSixDays 0 0).2.2.1 (by decide),
   (claim_C1 cfgSmall 0 0).2.2.2.2 (fun _ => false) (by decide) (by decide) (by decide)⟩

/-- Claim C2: every works-on-day indicator created by the window encoder
(one per worker, window start, day of the window) is a true biconditional:
in every satisfying assignment it is true exactly when some assignment
variable of that worker on that day over the day's valid shifts is true.
Both directions come from the pair
`AddBoolOr(...).OnlyEnforceIf(works)` / `Add(sum == 0).OnlyEnforceIf(works.Not())`. -/
theorem claim_C2 (cfg : Config) (asg : VarId → Bool) (w t d : Nat)
    (hw : w < cfg.num_workers) (ht : t + 7 ≤ cfg.num_days)
    (hd1 : t ≤ d) (hd2 : d < t + 7)
    (hsat : satisfiesModel asg (mkModel cfg) = true) :
    asg (VarId.works w t d) = (shifts_by_day_type d).any (fun s => asg (VarId.x w d s)) := by
  have hmem1 : Constraint.boolOrIf (VarId.works w t d) (dayVars w d) ∈ (mkModel cfg).constraints :=
    mem_mkModel.mpr (Or.inr (Or.inr (mem_constraint3.mpr
      ⟨w, hw, t, ht, Or.inl ⟨d, hd1, hd2, Or.inl rfl⟩⟩)))
  have hmem2 : Constraint.zeroIfNot (VarId.works w t d) (dayVars w d) ∈ (mkModel cfg).constraints :=
    mem_mkModel.mpr (Or.inr (Or.inr (mem_constraint3.mpr
      ⟨w, hw, t, ht, Or.inl ⟨d, hd1, hd2, Or.inr rfl⟩⟩)))
  have e1 := sat_eval hsat hmem1
  have e2 := sat_eval hsat hmem2
  simp only [evalC] at e1 e2
  have hany := any_dayVars asg w d
  cases hv : asg (VarId.works w t d)
  · rw [hv] at e2
    simp only [Bool.false_or] at e2
    have h0 := countTrue_eq_zero.mp (of_decide_eq_true e2)
    rw [← hany, h0]
  · rw [hv] at e1
    simp only [Bool.not_true, Bool.false_or] at e1
    rw [← hany, e1]

/-- Witness for C2: the all-false assignment satisfies the 7-day zero-staff
model and the biconditional evaluates to `false = false` at worker 0,
window 0, day 0. -/
theorem claim_C2_witness :
    (fun _ => false : VarId → Bool) (VarId.works 0 0 0)
      = (shifts_by_day_type 0).any (fun s => (fun _ => false : VarId → Bool) (VarId.x 0 0 s)) :=
  claim_C2 cfgSmall (fun _ => false) 0 0 0 (by decide) (by decide) (by decide) (by decide)
    (by decide)

/-- Claim C3: for every day `d` and shift `s` valid on `d`, the model
contains the equality constraint `sum over workers of x(w,d,s) = requirement`
with the configured staffing value, and every satisfying assignment staffs
that slot with exactly that count — over-staffing and under-staffing are
both excluded. -/
theorem claim_C3 (cfg : Config) (d : Nat) (s : Shift) (r : Int)
    (hd : d < cfg.num_days) (hs : s ∈ shifts_by_day_type d)
    (hr : reqOf cfg d s = some r) :
    Constraint.exactSum (coverVars cfg d s) r ∈ (mkModel cfg).constraints
    ∧ ∀ asg, satisfiesModel asg (mkModel cfg) = true →
        (countTrue asg (coverVars cfg d s) : Int) = r := by
  have hmem : Constraint.exactSum (coverVars cfg d s) r ∈ (mkModel cfg).constraints :=
    mem_mkModel.mpr (Or.inr (Or.inl (mem_c2total.mpr ⟨d, hd, s, hs, r, hr, rfl⟩)))
  refine ⟨hmem, fun asg hsat => ?_⟩
  have he := sat_eval hsat hmem
  simp only [evalC] at he
  exact of_decide_eq_true he

/-- Witness for C3 at the 7-day zero-staff configuration, day 0, `manha`,
requirement 0, under the all-false assignment. -/
theorem claim_C3_witness :
    Constraint.exactSum (coverVars cfgSmall 0 Shift.manha) 0 ∈ (mkModel cfgSmall).constraints
    ∧ (countTrue (fun _ => false) (coverVars cfgSmall 0 Shift.manha) : Int) = 0 := by
  have h := claim_C3 cfgSmall 0 Shift.manha 0 (by decide) (by decide) (by decide)
  exact ⟨h.1, h.2 (fun _ => false) (by decide)⟩

/-- Claim C4: per worker and day the model has the single multi-way
`AddAtMostOne` constraint over all valid shifts of the day; every
`atMostOne` constraint of the model is of exactly that form (no pairwise
encoding), and in every satisfying assignment at most one of the worker's
assignment variables of that day is true. -/
theorem claim_C4 (cfg : Config) (w d : Nat)
    (hw : w < cfg.num_workers) (hd : d < cfg.num_days) :
    Constraint.atMostOne (dayVars w d) ∈ (mkModel cfg).constraints
    ∧ (∀ vs, Constraint.atMostOne vs ∈ (mkModel cfg).constraints →
        ∃ w' d', w' < cfg.num_workers ∧ d' < cfg.num_days ∧ vs = dayVars w' d')
    ∧ ∀ asg, satisfiesModel asg (mkModel cfg) = true →
        countTrue asg (dayVars w d) ≤ 1 := by
  have hmem : Constraint.atMostOne (dayVars w d) ∈ (mkModel cfg).constraints :=
    mem_mkModel.mpr (Or.inl (mem_constraint1.mpr ⟨w, hw, d, hd, rfl⟩))
  refine ⟨hmem, ?_, fun asg hsat => ?_⟩
  · intro vs hvs
    rcases mem_mkModel.mp hvs with h1 | h2 | h3
    · rcases mem_constraint1.mp h1 with ⟨w', hw', d', hd', heq⟩
      injection heq with hv
      exact ⟨w', d', hw', hd', hv⟩
    · rcases mem_c2total.mp h2 with ⟨_, _, _, _, _, _, heq⟩
      exact Constraint.noConfusion heq
    · rcases mem_constraint3.mp h3 with ⟨_, _, _, _, hcase⟩
      rcases hcase with ⟨_, _, _, heq | heq⟩ | heq
      · exact Constraint.noConfusion heq
      · exact Constraint.noConfusion heq
      · exact Constraint.noConfusion heq
  · have he := sat_eval hsat hmem
    simp only [evalC] at he
    exact of_decide_eq_true he

/-- Witness for C4 at the 7-day zero-staff configuration, worker 0, day 0,
under the all-false assignment. -/
theorem claim_C4_witness :
    Constraint.atMostOne (dayVars 0 0) ∈ (mkModel cfgSmall).constraints
    ∧ countTrue (fun _ => false) (dayVars 0 0) ≤ 1 := by
  have h := claim_C4 cfgSmall 0 0 (by decide) (by decide)
  exact ⟨h.1, h.2.2 (fun _ => false) (by decide)⟩

/-- Claim C5: assignment variables exist exactly for the valid (day, shift)
pairs — all four kinds on a weekday (`d mod 7 ∉ {5, 6}`), only
`manha`/`tarde`/`noite` (never `central`) on a weekend — and neither the
constraint builder nor the extraction/summary steps ever query a key outside
that set. -/
theorem claim_C5 (cfg : Config) (w d : Nat) (s : Shift) :
    (isWeekendDay d = true ↔ d % 7 = 5 ∨ d % 7 = 6)
    ∧ (VarId.x w d s ∈ assignmentVars cfg ↔
        w < cfg.num_workers ∧ d < cfg.num_days ∧ s ∈ shifts_by_day_type d)
    ∧ (isWeekendDay d = false → s ∈ shifts_by_day_type d)
    ∧ (isWeekendDay d = true → (s ∈ shifts_by_day_type d ↔ s ≠ Shift.central))
    ∧ (∀ c ∈ (mkModel cfg).constraints, ∀ w' d' s', VarId.x w' d' s' ∈ varsOf c →
        VarId.x w' d' s' ∈ assignmentVars cfg)
    ∧ (∀ v ∈ scheduleQueries cfg, v ∈ assignmentVars cfg)
    ∧ (∀ v ∈ summaryQueries cfg, v ∈ assignmentVars cfg) := by
  refine ⟨isWeekendDay_iff, x_mem_assignmentVars, mem_shifts_weekday, mem_shifts_weekend,
    ?_, ?_, ?_⟩
  · intro c hc w' d' s' hv
    rcases mem_mkModel.mp hc with h1 | h2 | h3
    · rcases mem_constraint1.mp h1 with ⟨w0, hw0, d0, hd0, rfl⟩
      simp only [varsOf] at hv
      rcases x_mem_dayVars.mp hv with ⟨rfl, rfl, hs⟩
      exact x_mem_assignmentVars.mpr ⟨hw0, hd0, hs⟩
    · rcases mem_c2total.mp h2 with ⟨d0, hd0, s0, hs0, r, hr, rfl⟩
      simp only [varsOf] at hv
      rcases x_mem_coverVars.mp hv with ⟨hw', rfl, rfl⟩
      exact x_mem_assignmentVars.mpr ⟨hw', hd0, hs0⟩
    · rcases mem_constraint3.mp h3 with ⟨w0, hw0, t0, ht0, hcase⟩
      rcases hcase with ⟨d0, hdl, hdr, heq | heq⟩ | heq
      · subst heq
        simp only [varsOf, List.mem_cons] at hv
        rcases hv with habs | hv
        · exact VarId.noConfusion habs
        · rcases x_mem_dayVars.mp hv with ⟨rfl, rfl, hs⟩
          exact x_mem_assignmentVars.mpr ⟨hw0, by omega, hs⟩
      · subst heq
        simp only [varsOf, List.mem_cons] at hv
        rcases hv with habs | hv
        · exact VarId.noConfusion habs
        · rcases x_mem_dayVars.mp hv with ⟨rfl, rfl, hs⟩
          exact x_mem_assignmentVars.mpr ⟨hw0, by omega, hs⟩
      · subst heq
        simp only [varsOf] at hv
        exact absurd hv x_not_mem_windowVars
  · intro v hv
    simp only [scheduleQueries, List.mem_flatMap, List.mem_map, List.mem_range] at hv
    rcases hv with ⟨p, hp, w0, hw0, rfl⟩
    rcases mem_daySlots.mp hp with ⟨hd0, hs0⟩
    exact x_mem_assignmentVars.mpr ⟨hw0, hd0, hs0⟩
  · intro v hv
    simp only [summaryQueries, List.mem_flatMap, List.mem_map, List.mem_range] at hv
    rcases hv with ⟨w0, hw0, p, hp, rfl⟩
    rcases mem_daySlots.mp hp with ⟨hd0, hs0⟩
    exact x_mem_assignmentVars.mpr ⟨hw0, hd0, hs0⟩

/-- Witness for C5: day 0 is a weekday with all four kinds valid, day 5 is a
weekend where `central` is excluded, and the (0, 0, manha) key exists in the
7-day model. -/
theorem claim_C5_witness :
    VarId.x 0 0 Shift.manha ∈ assignmentVars cfgSmall
    ∧ Shift.central ∈ shifts_by_day_type 0
    ∧ (Shift.central ∈ shifts_by_day_type 5 ↔ Shift.central ≠ Shift.central) := by
  have h0 := claim_C5 cfgSmall 0 0 Shift.manha
  have hc := claim_C5 cfgSmall 0 0 Shift.central
  have h5 := claim_C5 cfgSmall 0 5 Shift.central
  exact ⟨h0.2.1.mpr (by decide), hc.2.2.1 (by decide), h5.2.2.2.1 (by decide)⟩

/-- Counterexample to C6 as stated: in the 8-day, 1-worker model the window
loop creates two distinct works-on-day indicators that both stand for
(worker 0, day 1) — one inside the window starting at 0, one inside the
window starting at 1 — and the total indicator count is
`1 * ((8 - 6) * 7) = 14`, not one per (worker, day) pair (8). -/
theorem claim_C6_counterexample :
    VarId.works 0 0 1 ∈ worksVars cfgTwoWindows
    ∧ VarId.works 0 1 1 ∈ worksVars cfgTwoWindows
    ∧ VarId.works 0 0 1 ≠ VarId.works 0 1 1
    ∧ (worksVars cfgTwoWindows).length = 14 := by decide

/-- Claim C6 (amended): the window encoder introduces one fresh
works-on-day indicator per (worker, window start, day of the window) triple —
`num_workers * ((num_days - 6) * 7)` in total — so a day shared by several
overlapping windows has a distinct indicator per window rather than one
shared variable per (worker, day). -/
theorem claim_C6_amended (cfg : Config) (w t d : Nat) :
    (VarId.works w t d ∈ worksVars cfg ↔
      w < cfg.num_workers ∧ t + 7 ≤ cfg.num_days ∧ t ≤ d ∧ d < t + 7)
    ∧ (worksVars cfg).length = cfg.num_workers * ((cfg.num_days - 6) * 7) := by
  refine ⟨works_mem_worksVars, ?_⟩
  have hlen : ∀ w' ∈ List.range cfg.num_workers,
      ((List.range (cfg.num_days - 6)).flatMap fun t' =>
        (windowDays t').map (VarId.works w' t')).length = (cfg.num_days - 6) * 7 := by
    intro w' _
    rw [length_flatMap_const _ _ 7 (fun t' _ => by simp [windowDays]), List.length_range]
  rw [worksVars, length_flatMap_const _ _ ((cfg.num_days - 6) * 7) hlen, List.length_range]

/-- Witness for C6 (amended) at the 7-day, 1-worker configuration. -/
theorem claim_C6_amended_witness :
    VarId.works 0 0 3 ∈ worksVars cfgSmall
    ∧ (worksVars cfgSmall).length = 1 * ((7 - 6) * 7) := by
  have h := claim_C6_amended cfgSmall 0 0 3
  exact ⟨h.1.mpr (by decide), h.2⟩

/-- Counterexample to C7 as stated: under the assignment that gives worker 0
all four shifts of day 0 (violating at-most-one-shift-per-day), extraction
still returns a 4-row schedule in which worker 0 appears in all 4 rows; the
spec's required at-most-one re-check fails on the returned schedule, and no
`ValidationFailure` is raised — the source has no validation or failure path
at all. -/
theorem claim_C7_counterexample :
    spec_at_most_one_ok cfgOneDay (create_schedule_dataframe cfgOneDay badAsg) = false
    ∧ (create_schedule_dataframe cfgOneDay badAsg).length = 4
    ∧ (create_schedule_dataframe cfgOneDay badAsg).countP
        (fun r => r.workers.contains 0) = 4 := by decide

/-- Claim C7 (amended): the extraction step performs no re-verification:
for every assignment, violating or not, `create_schedule_dataframe`
unconditionally returns one row per (day, valid shift) whose worker list is
exactly the workers whose variable is true — there is no validation and no
failure path. -/
theorem claim_C7_amended (cfg : Config) (asg : VarId → Bool) :
    (create_schedule_dataframe cfg asg).length = (daySlots cfg).length
    ∧ ∀ r ∈ create_schedule_dataframe cfg asg,
        r.workers = (List.range cfg.num_workers).filter (fun w => asg (VarId.x w r.day_num r.shift))
        ∧ r.worker_count = r.workers.length := by
  constructor
  · unfold create_schedule_dataframe daySlots
    apply length_flatMap_congr
    intro d _
    simp
  · intro r hr
    simp only [create_schedule_dataframe, List.mem_flatMap, List.mem_range, List.mem_map] at hr
    rcases hr with ⟨d, hd, s, hs, heq⟩
    subst heq
    exact ⟨rfl, rfl⟩

/-- Witness for C7 (amended): at the 1-day configuration with the violating
assignment, extraction still produces one row per (day, valid shift). -/
theorem claim_C7_amended_witness :
    (create_schedule_dataframe cfgOneDay badAsg).length = (daySlots cfgOneDay).length :=
  (claim_C7_amended cfgOneDay badAsg).1

/-- Counterexample to C8 as stated: the configuration whose weekday `manha`
staffing count is -1 is accepted by `create_scheduling_model` without any
error — no `ConfigurationError` is raised for negative counts, before
variable creation or at all. -/
theorem claim_C8_counterexample : buildSucceeds cfgNegative = true := by decide

/-- Claim C8 (amended): model construction performs no upfront
configuration validation: a negative staffing count is silently encoded
(construction succeeds and the resulting model is unsatisfiable), while a
staffing dictionary missing an entry for a valid (day-type, shift) pair
fails with a `KeyError` during coverage-constraint construction — after the
assignment-variable creation loop, which is independent of the staffing
dictionaries, has produced all 4 variables of the 1-day, 1-worker horizon. -/
theorem claim_C8_amended :
    buildSucceeds cfgNegative = true
    ∧ (∀ asg, satisfiesModel asg (mkModel cfgNegative) = false)
    ∧ buildSucceeds cfgMissing = false
    ∧ (assignmentVars cfgMissing).length = 4 := by
  refine ⟨by decide, fun asg => ?_, by decide, by decide⟩
  have hmem : Constraint.exactSum (coverVars cfgNegative 0 Shift.manha) (-1)
      ∈ (mkModel cfgNegative).constraints := by decide
  apply sat_false_of hmem
  simp only [evalC]
  apply decide_eq_false
  intro h
  have hnn : (0 : Int) ≤ (countTrue asg (coverVars cfgNegative 0 Shift.manha) : Int) :=
    Int.ofNat_nonneg _
  omega

/-- Counterexample to C9 as stated: `Unknown` and `Infeasible` are handled
by the same code path — both fall into the single `else` branch of the
post-solve dispatch. -/
theorem claim_C9_counterexample :
    solutionBranch CpSolverStatus.unknown = solutionBranch CpSolverStatus.infeasible := by decide

/-- Claim C9 (amended): only `Optimal`/`Feasible` select the solution
branch; `Unknown` and `Infeasible` share the single `else` branch, and the
only distinction surfaced between them is the solver status name embedded in
the failure message string — there is no separate retryable status or code
path for `Unknown`. -/
theorem claim_C9_amended :
    solutionBranch CpSolverStatus.unknown = false
    ∧ solutionBranch CpSolverStatus.infeasible = false
    ∧ solutionBranch CpSolverStatus.optimal = true
    ∧ solutionBranch CpSolverStatus.feasible = true
    ∧ failure_message CpSolverStatus.unknown ≠ failure_message CpSolverStatus.infeasible := by
  refine ⟨rfl, rfl, rfl, rfl, ?_⟩
  intro h
  simp [failure_message, solutionBranch, status_name] at h

/-- Claim C10: every worker row of the summary is internally consistent for
any assignment: total = weekday + weekend, total = sum of the four per-kind
counts, and the `central` count receives contributions only from weekday
slots (no `central` variable exists on weekends). -/
theorem claim_C10 (cfg : Config) (asg : VarId → Bool) :
    ∀ row ∈ create_worker_summary cfg asg,
      row.total_shifts = row.weekday_count + row.weekend_count
      ∧ row.total_shifts =
          row.manha_count + row.central_count + row.tarde_count + row.noite_count
      ∧ row.central_count = (daySlots cfg).countP
          (fun p => asg (VarId.x row.worker_id p.1 p.2) && decide (p.2 = Shift.central)
            && !decide (5 ≤ p.1 % 7)) := by
  intro row hrow
  simp only [create_worker_summary, List.mem_map, List.mem_range] at hrow
  rcases hrow with ⟨w, hw, heq⟩
  subst heq
  refine ⟨?_, ?_, ?_⟩
  · show (daySlots cfg).countP (fun p => asg (VarId.x w p.1 p.2))
      = (daySlots cfg).countP (fun p => asg (VarId.x w p.1 p.2) && !decide (5 ≤ p.1 % 7))
        + (daySlots cfg).countP (fun p => asg (VarId.x w p.1 p.2) && decide (5 ≤ p.1 % 7))
    rw [countP_split (daySlots cfg) (fun p => asg (VarId.x w p.1 p.2))
      (fun p => decide (5 ≤ p.1 % 7))]
    omega
  · exact countP_shift_partition (daySlots cfg) _
  · show (daySlots cfg).countP
        (fun p => asg (VarId.x w p.1 p.2) && decide (p.2 = Shift.central))
      = (daySlots cfg).countP
        (fun p => asg (VarId.x w p.1 p.2) && decide (p.2 = Shift.central)
          && !decide (5 ≤ p.1 % 7))
    apply countP_congr_mem
    intro a ha
    rcases mem_daySlots.mp ha with ⟨_, hs⟩
    by_cases hc : a.2 = Shift.central
    · have hwk : isWeekendDay a.1 = false := central_mem_shifts (hc ▸ hs)
      have hge : decide (5 ≤ a.1 % 7) = false := by rw [← isWeekendDay_eq_ge]; exact hwk
      simp [hc, hge]
    · simp [hc]

/-- The first summary row of the 1-day, 2-worker configuration under the
all-shifts-for-worker-0 assignment. -/
def rowC10 : WorkerRow :=
  { worker_id := 0, total_shifts := 4, weekday_count := 4, weekend_count := 0
  , manha_count := 1, central_count := 1, tarde_count := 1, noite_count := 1 }

/-- Witness for C10 at a concrete summary row. -/
theorem claim_C10_witness :
    rowC10.total_shifts = rowC10.weekday_count + rowC10.weekend_count
    ∧ rowC10.total_shifts =
        rowC10.manha_count + rowC10.central_count + rowC10.tarde_count + rowC10.noite_count
    ∧ rowC10.central_count = (daySlots cfgOneDay).countP
        (fun p => badAsg (VarId.x rowC10.worker_id p.1 p.2) && decide (p.2 = Shift.central)
          && !decide (5 ≤ p.1 % 7)) :=
  claim_C10 cfgOneDay badAsg rowC10 (by decide)

end Horario
